import Mathlib

/-!
Shallow embedding of `src/main.py` (YouTube → Notion incremental sync script)
and proofs about it.

Modelling conventions, used throughout:
* Python strings are Lean `String`s; character-level scanning works on `String.data`.
* Python `datetime` values are modelled as integer timestamps (`Int`); comparison of
  datetimes is integer comparison, and `now - timedelta(hours=24)` is a `cutoff : Int`
  parameter.
* Python `set` is `Finset String`; Python `dict` used as a map is `String → Option α`
  (assignment is pointwise update, so last write wins, as for a Python dict).
* A remote call that can raise is given an explicit outcome type (`ApiResult`,
  `PostResult`); a Python function that can let an exception escape returns `Except`.
* `requests` responses are modelled by their status code; `raise_for_status()` raises
  exactly when the status code is ≥ 400.
-/

namespace Sync

/-! ### Decimal digits (used to state the duration round-trip property) -/

/-- Value of an ASCII decimal digit character. -/
def digitVal (c : Char) : Nat := c.toNat - 48

/-- Numeric value of a list of ASCII decimal digit characters (as Python's `int` on the
captured group of the duration regex). -/
def digitsToNat (l : List Char) : Nat :=
  l.foldl (fun a c => 10 * a + digitVal c) 0

/-- Decimal digit string of a natural number, most significant digit first. -/
def natDigits (n : Nat) : List Char :=
  if h : n < 10 then [Nat.digitChar n]
  else natDigits (n / 10) ++ [Nat.digitChar (n % 10)]
decreasing_by exact Nat.div_lt_self (Nat.lt_of_lt_of_le (by decide) (Nat.le_of_not_lt h)) (by decide)

/-! ### Duration codec: `parse_duration` and `calculate_duration_decimal` -/

/-- One optional regex component `(?:(\d+)X)?` of the duration pattern, at the current
scan position. Python's `re` matches the group exactly when the position starts with a
nonempty maximal digit run followed by the component letter (greediness never needs
global backtracking here because all three components are optional, so the overall
match always succeeds once `PT` has matched). An absent component leaves the position
unchanged and contributes 0, matching `if hours: total_seconds += ...`. -/
def parseComp (s : List Char) (letter : Char) : Nat × List Char :=
  let ds := s.takeWhile Char.isDigit
  match s.dropWhile Char.isDigit with
  | [] => (0, s)
  | c :: rest =>
    if ds.isEmpty then (0, s)
    else if c = letter then (digitsToNat ds, rest) else (0, s)

/-- Embeds `parse_duration` (src/main.py lines 198–228): `re.match` of
`PT(?:(\d+)H)?(?:(\d+)M)?(?:(\d+)S)?`, summing `3600*H + 60*M + S`; empty input or
input not starting with `PT` yields 0. `re.match` anchors only at the start, so
trailing characters after the matched components are ignored, as in the source. -/
def parse_duration (duration_str : String) : Nat :=
  if duration_str = "" then 0
  else
    match duration_str.data with
    | 'P' :: 'T' :: rest =>
      let hr := parseComp rest 'H'
      let mr := parseComp hr.2 'M'
      let sr := parseComp mr.2 'S'
      3600 * hr.1 + 60 * mr.1 + sr.1
    | _ => 0

/-- Floor of a rational, written with `Int.fdiv` so that it evaluates by kernel
reduction (the denominator of a `ℚ` is positive, so this is the true floor). -/
def ratFloor (q : ℚ) : ℤ := q.num.fdiv q.den

/-- Round-half-to-even at integer precision, the rounding used by Python's `round`.
The Python source rounds a `float`; we model the arithmetic exactly over `ℚ`. -/
def roundHalfEven (q : ℚ) : ℤ :=
  let f := ratFloor q
  let r := q - f
  if r < 1/2 then f
  else if 1/2 < r then f + 1
  else if f % 2 = 0 then f else f + 1

/-- Embeds `calculate_duration_decimal` (src/main.py lines 230–244):
`round(seconds / 60, 2)`, with 0 mapped to 0.0. -/
def calculate_duration_decimal (seconds : Nat) : ℚ :=
  if seconds = 0 then 0
  else (roundHalfEven (100 * ((seconds : ℚ) / 60)) : ℚ) / 100

/-- Reference encoder for well-formed compact duration strings: `PT`, then an optional
`<digits>H`, optional `<digits>M`, optional `<digits>S` component. Used only to state
the specification's round-trip property for `parse_duration`. -/
def ptEncode (h m s : Option Nat) : String :=
  let comp : Option Nat → Char → List Char := fun o c =>
    match o with
    | none => []
    | some n => natDigits n ++ [c]
  ⟨'P' :: 'T' :: (comp h 'H' ++ comp m 'M' ++ comp s 'S')⟩

/-! ### Record store reader: `get_existing_video_ids` and `get_channel_type_mappings`

The Notion query endpoint is modelled by the transcript of its successive responses:
one `IdStep`/`MapStep` per `requests.post` in the pagination loop. `err` models any
exception raised while requesting or decoding that page (the `except Exception` arm);
`ok records hasMore` models a 200 response with the given extracted records and
`has_more` flag. Records are modelled at the level the Python code extracts them to:
the JSON plumbing around `properties` is thin I/O, so an id-page record is just its
optional URL string (`none` when the property is missing, not of URL type, or empty,
all of which the source skips), and a mapping-page record is its optional channel and
type strings after `.strip()`. -/

/-- Python truthiness of an optional string: `None` and `""` are falsy. -/
def pyTruthy (o : Option String) : Bool := !(o.getD "").isEmpty

/-- Tries the regex `(?:v=|/)([a-zA-Z0-9_-]{11})` at the current position: `v=` or `/`
followed by exactly 11 word characters; returns the captured group. -/
def matchIdAt (s : List Char) : Option String :=
  let wordChar : Char → Bool := fun c => c.isAlpha || c.isDigit || c = '_' || c = '-'
  let take11 : List Char → Option String := fun l =>
    let ds := l.take 11
    if ds.length = 11 && ds.all wordChar then some ⟨ds⟩ else none
  match s with
  | 'v' :: '=' :: rest => take11 rest
  | '/' :: rest => take11 rest
  | _ => none

/-- Embeds `re.search(r'(?:v=|/)([a-zA-Z0-9_-]{11})', video_url)` (src/main.py line
183): leftmost position at which the pattern matches; the two alternatives can never
both apply at one position, so alternation order is irrelevant. -/
def searchVideoId : List Char → Option String
  | [] => none
  | c :: rest =>
    match matchIdAt (c :: rest) with
    | some vid => some vid
    | none => searchVideoId rest

/-- One response of the paginated query endpoint during `get_existing_video_ids`. -/
inductive IdStep where
  | ok (records : List (Option String)) (hasMore : Bool)
  | err
deriving DecidableEq

/-- Records carried by an `IdStep` (`err` carries none). -/
def IdStep.records : IdStep → List (Option String)
  | .ok records _ => records
  | .err => []

/-- Processes one page of records of `get_existing_video_ids` (src/main.py lines
178–185): for each record with a URL, add the extracted 11-character video id, if any;
records lacking a parseable URL are skipped. -/
def extractIdsPage (acc : Finset String) (records : List (Option String)) : Finset String :=
  records.foldl
    (fun acc r =>
      match r with
      | some u =>
        match searchVideoId u.data with
        | some vid => insert vid acc
        | none => acc
      | none => acc)
    acc

/-- Pagination loop of `get_existing_video_ids`, structurally recursive on the response
transcript: an exception breaks the loop and the accumulated set is returned;
`has_more = false` ends it normally. -/
def existingIdsLoop (acc : Finset String) : List IdStep → Finset String
  | [] => acc
  | .err :: _ => acc
  | .ok records hasMore :: rest =>
    let acc := extractIdsPage acc records
    if hasMore then existingIdsLoop acc rest else acc

/-- Embeds `get_existing_video_ids` (src/main.py lines 140–196). Total: every
exception of the loop body is caught by the source's `except Exception` arm, which
breaks and falls through to the final `return`. -/
def get_existing_video_ids (transcript : List IdStep) : Finset String :=
  existingIdsLoop ∅ transcript

/-- A record of a mapping page, at extraction level: the channel name and type label
strings (after `.strip()`), `none` when the property is missing, of the wrong type, or
has an empty rich-text/select payload. -/
structure MappingRecord where
  channel : Option String
  typeName : Option String
deriving DecidableEq

/-- One response of the paginated query endpoint during `get_channel_type_mappings`. -/
inductive MapStep where
  | ok (records : List MappingRecord) (hasMore : Bool)
  | err
deriving DecidableEq

/-- Records carried by a `MapStep` (`err` carries none). -/
def MapStep.records : MapStep → List MappingRecord
  | .ok records _ => records
  | .err => []

/-- Processes one page of records of `get_channel_type_mappings` (src/main.py lines
108–126): `if channel_name and type_value: channel_type_map[channel_name] = type_value`.
Dict assignment is pointwise update, so the same channel appearing again wins. -/
def extractMappingsPage (acc : String → Option String) (records : List MappingRecord) :
    String → Option String :=
  records.foldl
    (fun acc r =>
      if pyTruthy r.channel && pyTruthy r.typeName then
        fun c => if c = r.channel.getD "" then some (r.typeName.getD "") else acc c
      else acc)
    acc

/-- Pagination loop of `get_channel_type_mappings`, structurally recursive on the
response transcript, breaking on an exception. -/
def typeMappingsLoop (acc : String → Option String) : List MapStep → String → Option String
  | [] => acc
  | .err :: _ => acc
  | .ok records hasMore :: rest =>
    let acc := extractMappingsPage acc records
    if hasMore then typeMappingsLoop acc rest else acc

/-- Embeds `get_channel_type_mappings` (src/main.py lines 39–138). Total for the same
reason as `get_existing_video_ids`. -/
def get_channel_type_mappings (transcript : List MapStep) : String → Option String :=
  typeMappingsLoop (fun _ => none) transcript

/-! ### Source lister: `get_last_24h_videos_with_duration` -/

/-- Outcome of one `execute()` on a YouTube API request: the decoded response, or an
exception (`HttpError` and any other exception are handled identically by the source:
both arms of the `try` return `[]`). -/
inductive ApiResult (α : Type) where
  | ok (a : α)
  | exn
deriving DecidableEq

/-- A playlist item's snippet, at the fields the source reads:
`resourceId.videoId`, `title`, `channelTitle`, `publishedAt` (as a timestamp). -/
structure Snippet where
  videoId : String
  title : String
  channelTitle : String
  publishedAt : Int
deriving DecidableEq

/-- One item of a `videos().list` response, at the fields the source reads: `id` and
`contentDetails.duration` (already defaulted to `""` when absent, as by the source's
`.get('contentDetails', {}).get('duration', '')`). -/
structure VideoDetail where
  id : String
  duration : String
deriving DecidableEq

/-- A dictionary of the `valid_videos` result list (src/main.py lines 358–365). -/
structure Video where
  title : String
  video_id : String
  channel_title : String
  published_at : Int
  duration_seconds : Nat
  duration_decimal : ℚ
deriving DecidableEq

/-- The YouTube API as seen by one `get_last_24h_videos_with_duration` call:
`channels().list` (reduced to whether `items` is nonempty — the uploads playlist id it
yields is passed straight into the next request), `playlistItems().list`, and the
batched `videos().list` keyed by the requested id list. -/
structure ChannelEnv where
  channelLookup : ApiResult Bool
  playlist : ApiResult (List Snippet)
  details : List String → ApiResult (List VideoDetail)

/-- Embeds the playlist scan loop (src/main.py lines 301–321): an item at or after the
cutoff is collected when unseen and skipped when seen; the first item before the
cutoff breaks the loop, so no later item is examined. Returns the collected items in
order (the source keeps the parallel structures `new_video_ids` and `video_snippets`,
both derived from this list below). -/
def scanPlaylist (cutoff : Int) (seen : Finset String) : List Snippet → List Snippet
  | [] => []
  | item :: rest =>
    if cutoff ≤ item.publishedAt then
      if item.videoId ∈ seen then scanPlaylist cutoff seen rest
      else item :: scanPlaylist cutoff seen rest
    else []

/-- The `video_snippets` dict built during the scan: keyed insertion in scan order,
later insertion winning, as for a Python dict. -/
def snippetsMap (cands : List Snippet) : String → Option Snippet :=
  cands.foldl (fun m s => fun k => if k = s.videoId then some s else m k) (fun _ => none)

/-- Embeds the duration filter loop over the `videos().list` response (src/main.py
lines 344–367): iterates the response items in order, keeps those with parsed duration
strictly greater than 300 seconds, and builds each kept video's dictionary from the
response item and the `video_snippets` entry for its id (missing entry defaulting
fields as `snippet.get(..., '')` does; the timestamp default is 0 in our integer
model of timestamps). -/
def qualifyVideos (resp : List VideoDetail) (snip : String → Option Snippet) : List Video :=
  resp.filterMap fun d =>
    let duration_seconds := parse_duration d.duration
    if 300 < duration_seconds then
      some
        { title := ((snip d.id).map Snippet.title).getD ""
          video_id := d.id
          channel_title := ((snip d.id).map Snippet.channelTitle).getD ""
          published_at := ((snip d.id).map Snippet.publishedAt).getD 0
          duration_seconds := duration_seconds
          duration_decimal := calculate_duration_decimal duration_seconds }
    else none

/-- Embeds `get_last_24h_videos_with_duration` (src/main.py lines 246–379), with
`cutoff` standing for `now - timedelta(hours=24)`. Every failure path of the source —
an exception from any of the three requests, a channel without items, or no new
in-window candidates — returns `[]`; the enclosing `try` catches `HttpError` and
`Exception`, so the function never lets an exception escape. -/
def get_last_24h_videos_with_duration (env : ChannelEnv) (cutoff : Int)
    (existing_video_ids : Finset String) : List Video :=
  match env.channelLookup with
  | .exn => []
  | .ok false => []
  | .ok true =>
    match env.playlist with
    | .exn => []
    | .ok items =>
      let cands := scanPlaylist cutoff existing_video_ids items
      let new_video_ids := cands.map Snippet.videoId
      if new_video_ids.isEmpty then []
      else
        match env.details new_video_ids with
        | .exn => []
        | .ok resp => qualifyVideos resp (snippetsMap cands)

/-! ### Record store writer: `add_videos_to_notion_batch` -/

/-- A Notion property value, one constructor per property shape the source builds. -/
inductive NotionValue where
  | titleV (s : String)
  | urlV (s : String)
  | richText (s : String)
  | dateV (t : Int)
  | numberV (q : ℚ)
  | selectV (s : String)
deriving DecidableEq

/-- Embeds the `properties` payload construction (src/main.py lines 412–432): the five
base properties, plus `Type` exactly when `channel_type_mappings.get(channel_name)` is
truthy. -/
def buildProperties (video : Video) (channel_type_mappings : String → Option String) :
    List (String × NotionValue) :=
  let video_type := channel_type_mappings video.channel_title
  let base : List (String × NotionValue) :=
    [("Title", .titleV video.title),
     ("URL", .urlV ("https://www.youtube.com/watch?v=" ++ video.video_id)),
     ("Channel", .richText video.channel_title),
     ("Date", .dateV video.published_at),
     ("Length", .numberV video.duration_decimal)]
  if pyTruthy video_type then base ++ [("Type", .selectV (video_type.getD ""))] else base

/-- Outcome of one `session.post` of a page-create request, as the writer's `try`
block observes it: a response with a status code (`raise_for_status()` then raises
exactly when the code is ≥ 400, a `RequestException` the writer catches), a
`RequestException` raised by the transport itself, or any other exception — which no
handler in the source catches. -/
inductive PostResult where
  | status (code : Nat)
  | reqExc
  | exn
deriving DecidableEq

/-- Whether a post outcome counts as a successful write: a response whose status code
passes `raise_for_status()`. -/
def postOk : PostResult → Bool
  | .status code => code < 400
  | .reqExc => false
  | .exn => false

/-- The per-video loop of `add_videos_to_notion_batch` (src/main.py lines 409–459).
`post i payload` is the outcome of the i-th `session.post`; `i` counts requests made
so far, so each video is posted exactly once, in order. A success or a caught
`RequestException` bumps the respective counter and the loop continues with the next
video; any other exception escapes the function (`Except.error`). -/
def addVideosLoop (channel_type_mappings : String → Option String)
    (post : Nat → List (String × NotionValue) → PostResult) :
    Nat → Nat → Nat → List Video → Except Unit (Nat × Nat)
  | _, success_count, failed_count, [] => .ok (success_count, failed_count)
  | i, success_count, failed_count, video :: rest =>
    match post i (buildProperties video channel_type_mappings) with
    | .status code =>
      if code < 400 then addVideosLoop channel_type_mappings post (i + 1) (success_count + 1) failed_count rest
      else addVideosLoop channel_type_mappings post (i + 1) success_count (failed_count + 1) rest
    | .reqExc => addVideosLoop channel_type_mappings post (i + 1) success_count (failed_count + 1) rest
    | .exn => .error ()

/-- Embeds `add_videos_to_notion_batch` (src/main.py lines 381–459): the empty batch
returns `(0, 0)` up front; otherwise the per-video loop runs over the whole batch. -/
def add_videos_to_notion_batch (videos : List Video)
    (channel_type_mappings : String → Option String)
    (post : Nat → List (String × NotionValue) → PostResult) : Except Unit (Nat × Nat) :=
  if videos.isEmpty then .ok (0, 0)
  else addVideosLoop channel_type_mappings post 0 0 0 videos

/-! ### Sync orchestrator: the per-channel loop of `main` -/

/-- The external world as one run of `main` sees it: per channel, the YouTube API
responses, and per channel the sequence of Notion write outcomes. -/
structure RunEnv where
  channelEnv : String → ChannelEnv
  post : String → Nat → List (String × NotionValue) → PostResult

/-- The merge step of `main` (src/main.py lines 531–532): each written-batch video's
id is added to `existing_video_ids`. -/
def mergeIds (seen : Finset String) (videos : List Video) : Finset String :=
  videos.foldl (fun acc v => insert v.video_id acc) seen

/-- Embeds the per-channel loop of `main` (src/main.py lines 511–534), with the
prefetched `channel_type_mappings` and `existing_video_ids` as inputs and `cutoff`
standing for `now - timedelta(hours=24)`. For each channel the lister runs against the
current seen-set; when it yields videos, the write batch runs and then the videos' ids
are merged into the seen-set. No handler surrounds the loop body in the source, so an
exception escaping `add_videos_to_notion_batch` propagates out of `main` (`.error`),
ending the run early. On normal termination the final seen-set and the summary
counters `total_success`, `total_failed` are returned. -/
def processChannels (env : RunEnv) (channel_type_mappings : String → Option String)
    (cutoff : Int) :
    List String → Finset String → Nat → Nat → Except Unit (Finset String × Nat × Nat)
  | [], existing_video_ids, total_success, total_failed =>
    .ok (existing_video_ids, total_success, total_failed)
  | channel_id :: rest, existing_video_ids, total_success, total_failed =>
    let videos := get_last_24h_videos_with_duration (env.channelEnv channel_id) cutoff
      existing_video_ids
    if videos.isEmpty then
      processChannels env channel_type_mappings cutoff rest existing_video_ids
        total_success total_failed
    else
      match add_videos_to_notion_batch videos channel_type_mappings (env.post channel_id) with
      | .error e => .error e
      | .ok (success, failed) =>
        processChannels env channel_type_mappings cutoff rest
          (mergeIds existing_video_ids videos) (total_success + success) (total_failed + failed)

/-- The per-channel video lists a run produces, one entry per channel in order,
together with the evolving seen-set; the pure trace of the run, independent of write
outcomes (merging over an empty list is the identity, so merging unconditionally here
agrees with the source's `if videos:` guard). -/
def channelVideos (env : RunEnv) (cutoff : Int) :
    List String → Finset String → List (List Video)
  | [], _ => []
  | channel_id :: rest, existing_video_ids =>
    let videos := get_last_24h_videos_with_duration (env.channelEnv channel_id) cutoff
      existing_video_ids
    videos :: channelVideos env cutoff rest (mergeIds existing_video_ids videos)

/-- The id set of a batch of videos. -/
def videoIds (videos : List Video) : Finset String :=
  (videos.map Video.video_id).toFinset

/-! ### Derived notions used to state the properties -/

/-- The sequence of `session.post` outcomes a write batch observes, one per video in
order, starting at request index `i`. -/
def writeOutcomes (channel_type_mappings : String → Option String)
    (post : Nat → List (String × NotionValue) → PostResult) :
    Nat → List Video → List PostResult
  | _, [] => []
  | i, video :: rest =>
    post i (buildProperties video channel_type_mappings) ::
      writeOutcomes channel_type_mappings post (i + 1) rest

/-- The documented contract of the batched `videos().list` endpoint: it returns only
items whose id was requested. The source relies on this; it is a property of the
external collaborator, so theorems that need it take it as a hypothesis. -/
def DetailsAgree (env : ChannelEnv) : Prop :=
  ∀ ids resp, env.details ids = .ok resp → ∀ d ∈ resp, d.id ∈ ids

/-- No write request ever raises anything but a (caught) `RequestException`: the
failure domain the specification's writer contract talks about. -/
def NoOtherExn (env : RunEnv) : Prop :=
  ∀ channel_id i payload, env.post channel_id i payload ≠ PostResult.exn

/-- Union of the id sets of a list of per-channel video batches. -/
def allVideoIds (batches : List (List Video)) : Finset String :=
  batches.foldl (fun acc vs => acc ∪ videoIds vs) ∅

/-- The seen-set after the whole per-channel loop, accumulated purely. -/
def seenAfter (env : RunEnv) (cutoff : Int) : List String → Finset String → Finset String
  | [], seen => seen
  | channel_id :: rest, seen =>
    seenAfter env cutoff rest
      (mergeIds seen (get_last_24h_videos_with_duration (env.channelEnv channel_id) cutoff seen))

/-! ### Concrete fixtures for witnesses and counterexamples -/

/-- A `videos().list` stub driven by a duration table: returns one item per requested
id that the table knows, echoing the requested id. -/
def tableDetails (table : String → Option String) : List String → ApiResult (List VideoDetail) :=
  fun ids => .ok (ids.filterMap fun i => (table i).map fun dur => ⟨i, dur⟩)

/-- Fixture channel environment: a single fresh in-window upload. -/
def envOneVideo : ChannelEnv where
  channelLookup := .ok true
  playlist := .ok [⟨"vidvidvidvi", "Video X", "ChanA", 0⟩]
  details := tableDetails fun i => if i = "vidvidvidvi" then some "PT10M" else none

/-- Fixture run for the C1 counterexample: one channel, one qualifying video, whose
write fails with a 500 status. -/
def envC1 : RunEnv where
  channelEnv := fun _ => envOneVideo
  post := fun _ _ _ => .status 500

/-- Fixture run for the C2 counterexample: channel "A" finds one qualifying video and
its write raises a non-`RequestException` exception; channel "B" would have a fresh
video of its own but is never reached. -/
def envC2 : RunEnv where
  channelEnv := fun channel_id =>
    if channel_id = "A" then envOneVideo
    else
      { channelLookup := .ok true
        playlist := .ok [⟨"wwwwwwwwwww", "Video W", "ChanB", 0⟩]
        details := tableDetails fun i => if i = "wwwwwwwwwww" then some "PT9M" else none }
  post := fun _ _ _ => .exn

/-- Fixture run for the C1 witness: channels "A" and "B" share the recent upload X
(so the cross-channel dedup is exercised), and "B" additionally has upload Y; every
write fails with a transport error, which per the amended claim still merges ids. -/
def envW1 : RunEnv where
  channelEnv := fun channel_id =>
    if channel_id = "A" then envOneVideo
    else
      { channelLookup := .ok true
        playlist := .ok [⟨"yyyyyyyyyyy", "Video Y", "ChanB", -1⟩, ⟨"vidvidvidvi", "Video X", "ChanA", -2⟩]
        details := tableDetails fun i =>
          if i = "vidvidvidvi" then some "PT10M"
          else if i = "yyyyyyyyyyy" then some "PT8M" else none }
  post := fun _ _ _ => .reqExc

/-- Fixture run for the C2 witness: channel "A"'s feed listing raises (the lister
swallows it), channel "B" has a fresh video whose write fails with a transport
error — the run still terminates normally. -/
def envW2 : RunEnv where
  channelEnv := fun channel_id =>
    if channel_id = "A" then { channelLookup := .ok true, playlist := .exn, details := tableDetails fun _ => none }
    else
      { channelLookup := .ok true
        playlist := .ok [⟨"wwwwwwwwwww", "Video W", "ChanB", 0⟩]
        details := tableDetails fun i => if i = "wwwwwwwwwww" then some "PT9M" else none }
  post := fun _ _ _ => .reqExc

/-! ### Lemmas about decimal digits -/

lemma digitsToNat_append_digit (l : List Char) (c : Char) :
    digitsToNat (l ++ [c]) = 10 * digitsToNat l + digitVal c := by
  simp [digitsToNat, List.foldl_append]

lemma digitChar_isDigit {d : Nat} (hd : d < 10) : (Nat.digitChar d).isDigit = true := by
  interval_cases d <;> decide

lemma digitVal_digitChar {d : Nat} (hd : d < 10) : digitVal (Nat.digitChar d) = d := by
  interval_cases d <;> decide

lemma natDigits_all_digit (n : Nat) : ∀ c ∈ natDigits n, c.isDigit = true := by
  induction n using Nat.strong_induction_on with
  | _ n ih =>
    rw [natDigits]
    split
    · intro c hc
      rw [List.mem_singleton] at hc
      subst hc
      exact digitChar_isDigit (by omega)
    · intro c hc
      rcases List.mem_append.mp hc with h | h
      · exact ih (n / 10) (Nat.div_lt_self (by omega) (by omega)) c h
      · rw [List.mem_singleton] at h
        subst h
        exact digitChar_isDigit (Nat.mod_lt _ (by omega))

lemma natDigits_ne_nil (n : Nat) : natDigits n ≠ [] := by
  rw [natDigits]
  split
  · simp
  · simp

lemma digitsToNat_natDigits (n : Nat) : digitsToNat (natDigits n) = n := by
  induction n using Nat.strong_induction_on with
  | _ n ih =>
    rw [natDigits]
    split
    · rename_i h
      show digitsToNat [Nat.digitChar n] = n
      simp [digitsToNat, digitVal_digitChar h]
    · rename_i h
      rw [digitsToNat_append_digit, ih (n / 10) (Nat.div_lt_self (by omega) (by omega)),
        digitVal_digitChar (Nat.mod_lt _ (by omega))]
      omega

/-! ### Lemmas about the duration parser -/

lemma takeWhile_all_append {p : Char → Bool} {l : List Char} (hl : ∀ c ∈ l, p c = true)
    {c : Char} (hc : p c = false) (r : List Char) :
    (l ++ c :: r).takeWhile p = l ∧ (l ++ c :: r).dropWhile p = c :: r := by
  induction l with
  | nil => simp [List.takeWhile_cons, List.dropWhile_cons, hc]
  | cons a l ih =>
    have ha : p a = true := hl a (by simp)
    have ih' := ih (fun x hx => hl x (by simp [hx]))
    simp [List.takeWhile_cons, List.dropWhile_cons, ha, ih'.1, ih'.2]

lemma parseComp_nil (letter : Char) : parseComp [] letter = (0, []) := rfl

lemma parseComp_cons_notDigit {c : Char} (hc : c.isDigit = false) (rest : List Char)
    (letter : Char) : parseComp (c :: rest) letter = (0, c :: rest) := by
  simp [parseComp, List.takeWhile_cons, List.dropWhile_cons, hc]

lemma parseComp_present (n : Nat) {letter : Char} (hletter : letter.isDigit = false)
    (rest : List Char) : parseComp (natDigits n ++ letter :: rest) letter = (n, rest) := by
  have h := takeWhile_all_append (natDigits_all_digit n) hletter rest
  simp only [parseComp, h.1, h.2]
  simp [natDigits_ne_nil n, digitsToNat_natDigits]

lemma parseComp_wrong (n : Nat) {c letter : Char} (hc : c.isDigit = false)
    (hne : c ≠ letter) (rest : List Char) :
    parseComp (natDigits n ++ c :: rest) letter = (0, natDigits n ++ c :: rest) := by
  have h := takeWhile_all_append (natDigits_all_digit n) hc rest
  simp only [parseComp, h.1, h.2]
  simp [natDigits_ne_nil n, hne]

lemma parse_duration_data (l : List Char) :
    parse_duration ⟨'P' :: 'T' :: l⟩ =
      3600 * (parseComp l 'H').1 + 60 * (parseComp (parseComp l 'H').2 'M').1 +
        (parseComp (parseComp (parseComp l 'H').2 'M').2 'S').1 := by
  have hne : (⟨'P' :: 'T' :: l⟩ : String) ≠ "" := by
    intro h
    have := congrArg String.data h
    simp at this
  simp [parse_duration, hne]

/-- Claim C5: the duration decoder is total — for every input string it returns a
non-negative integer (and, being a pure Lean function, never raises); empty or
malformed input yields 0; and every well-formed compact hour/minute/second encoding
decodes to `3600*hours + 60*minutes + seconds`, including the four example points
`decode("") = 0`, `decode("garbage") = 0`, `decode("PT5M30S") = 330`,
`decode("PT1H2M3S") = 3723`. -/
theorem claim_C5_duration_decoder_total :
    (∀ str : String, 0 ≤ parse_duration str) ∧
    parse_duration "" = 0 ∧
    parse_duration "garbage" = 0 ∧
    parse_duration "PT5M30S" = 330 ∧
    parse_duration "PT1H2M3S" = 3723 ∧
    (∀ h m s : Option Nat,
      parse_duration (ptEncode h m s) = 3600 * h.getD 0 + 60 * m.getD 0 + s.getD 0) := by
  refine ⟨fun _ => Nat.zero_le _, by decide, by decide, by decide, by decide, ?_⟩
  intro h m s
  cases h <;> cases m <;> cases s <;>
    simp only [ptEncode, List.append_assoc, List.singleton_append, List.cons_append,
      List.nil_append, List.append_nil, Option.getD_some, Option.getD_none] <;>
    rw [parse_duration_data] <;>
    simp +decide [parseComp_present, parseComp_wrong, parseComp_nil]

/-- Concrete instance of claim C5's round-trip statement, obtained from the theorem. -/
theorem claim_C5_witness :
    parse_duration (ptEncode (some 1) (some 2) (some 3)) = 3723 :=
  claim_C5_duration_decoder_total.2.2.2.2.2 (some 1) (some 2) (some 3)

/-! ### Lemmas about the playlist scan -/

lemma scanPlaylist_mem {cutoff : Int} {seen : Finset String} :
    ∀ {items : List Snippet}, ∀ x ∈ scanPlaylist cutoff seen items,
      x.videoId ∉ seen ∧ cutoff ≤ x.publishedAt := by
  intro items
  induction items with
  | nil => simp [scanPlaylist]
  | cons item rest ih =>
    intro x hx
    rw [scanPlaylist] at hx
    by_cases ht : cutoff ≤ item.publishedAt
    · rw [if_pos ht] at hx
      by_cases hs : item.videoId ∈ seen
      · rw [if_pos hs] at hx
        exact ih x hx
      · rw [if_neg hs] at hx
        rcases List.mem_cons.mp hx with h | h
        · subst h; exact ⟨hs, ht⟩
        · exact ih x h
    · rw [if_neg ht] at hx
      simp at hx

/-- Claim C3: scanning a channel's recent feed newest-first stops at the first item
older than the cutoff — the result does not depend on anything after it (`rest` is
universally quantified, so no subsequent item is ever evaluated, even one that would
itself be in-window) — while an in-window item whose id is already seen is skipped
and the scan continues past it: the collected candidates are exactly the unseen items
of the in-window initial segment, in order. Those candidate ids (and only they) feed
the batched duration lookup, so a seen item costs no duration fetch. -/
theorem claim_C3_scan_early_exit (cutoff : Int) (seen : Finset String)
    (pre : List Snippet) (item : Snippet) (rest : List Snippet)
    (hpre : ∀ x ∈ pre, cutoff ≤ x.publishedAt) (hitem : item.publishedAt < cutoff) :
    scanPlaylist cutoff seen (pre ++ item :: rest) =
      pre.filter (fun s => s.videoId ∉ seen) := by
  induction pre with
  | nil =>
    rw [List.nil_append, scanPlaylist, if_neg (not_le.mpr hitem)]
    rfl
  | cons a pre ih =>
    have ha : cutoff ≤ a.publishedAt := hpre a (by simp)
    rw [List.cons_append, scanPlaylist, if_pos ha, List.filter_cons]
    have ih' := ih (fun x hx => hpre x (by simp [hx]))
    by_cases hs : a.videoId ∈ seen
    · simp [hs, ih']
    · simp [hs, ih']

/-- Concrete instance of claim C3, the specification's own edge case: feed
`[t0 = now, t1 = now - 1h, t2 = now - 30h, t3 = now - 2h]` with a 24-hour window —
the scan stops at `t2` and never evaluates `t3` even though `t3` is in-window; here
`t1` is already seen, so it is skipped while the scan continues to `t0`'s successor. -/
theorem claim_C3_witness :
    scanPlaylist (-24) ({"t1"} : Finset String)
        [⟨"t0", "", "", 0⟩, ⟨"t1", "", "", -1⟩, ⟨"t2", "", "", -30⟩, ⟨"t3", "", "", -2⟩] =
      [⟨"t0", "", "", 0⟩] := by
  have h := claim_C3_scan_early_exit (-24) ({"t1"} : Finset String)
    [⟨"t0", "", "", 0⟩, ⟨"t1", "", "", -1⟩] ⟨"t2", "", "", -30⟩ [⟨"t3", "", "", -2⟩]
    (by decide) (by decide)
  exact h.trans (by decide)

/-! ### Lemmas about the duration filter -/

lemma qualifyVideos_mem {resp : List VideoDetail} {snip : String → Option Snippet}
    {v : Video} (hv : v ∈ qualifyVideos resp snip) :
    ∃ d ∈ resp, 300 < parse_duration d.duration ∧ v.video_id = d.id ∧
      v.duration_seconds = parse_duration d.duration := by
  rw [qualifyVideos, List.mem_filterMap] at hv
  obtain ⟨d, hd, hfd⟩ := hv
  by_cases h : 300 < parse_duration d.duration
  · rw [if_pos h, Option.some_inj] at hfd
    exact ⟨d, hd, h, by rw [← hfd], by rw [← hfd]⟩
  · rw [if_neg h] at hfd
    exact absurd hfd (by simp)

/-- Claim C4: every video the qualification step produces has decoded duration
strictly greater than the 300-second threshold; at the boundary, a 300-second
candidate (`PT5M`) is excluded and a 301-second candidate (`PT5M1S`) is kept,
whatever the snippet table holds. -/
theorem claim_C4_strict_duration_threshold :
    (∀ (resp : List VideoDetail) (snip : String → Option Snippet),
       ∀ v ∈ qualifyVideos resp snip, 300 < v.duration_seconds) ∧
    (∀ snip, qualifyVideos [⟨"a", "PT5M"⟩] snip = []) ∧
    (∀ snip, (qualifyVideos [⟨"a", "PT5M1S"⟩] snip).map Video.duration_seconds = [301]) := by
  refine ⟨?_, ?_, ?_⟩
  · intro resp snip v hv
    obtain ⟨d, _, hgt, _, hdur⟩ := qualifyVideos_mem hv
    rw [hdur]
    exact hgt
  · intro snip
    have h : parse_duration "PT5M" = 300 := by decide
    simp [qualifyVideos, h]
  · intro snip
    have h : parse_duration "PT5M1S" = 301 := by decide
    simp [qualifyVideos, h]

/-- Concrete instance of claim C4: in a batch holding a 300-second and a 301-second
candidate, the video surviving qualification exceeds the threshold. -/
theorem claim_C4_witness :
    300 <
      (Video.mk "" "b" "" 0 301 (calculate_duration_decimal 301)).duration_seconds :=
  claim_C4_strict_duration_threshold.1 [⟨"a", "PT5M"⟩, ⟨"b", "PT5M1S"⟩] (fun _ => none)
    (Video.mk "" "b" "" 0 301 (calculate_duration_decimal 301))
    (by
      have h300 : parse_duration "PT5M" = 300 := by decide
      have h301 : parse_duration "PT5M1S" = 301 := by decide
      simp [qualifyVideos, h300, h301])

lemma tableDetails_spec {t : String → Option String} {ids : List String}
    {resp : List VideoDetail} (h : tableDetails t ids = .ok resp) {d : VideoDetail}
    (hd : d ∈ resp) : d.id ∈ ids ∧ t d.id ≠ none := by
  simp only [tableDetails, ApiResult.ok.injEq] at h
  subst h
  rw [List.mem_filterMap] at hd
  obtain ⟨i, hi, hmap⟩ := hd
  rcases ht : t i with _ | dur
  · rw [ht] at hmap
    simp at hmap
  · rw [ht] at hmap
    have hdi : (⟨i, dur⟩ : VideoDetail) = d := by simpa using hmap
    subst hdi
    exact ⟨hi, by simp [ht]⟩

/-- Claim C9: an identifier that no item of any detail-lookup response carries never
appears in the lister's result — a candidate the batched lookup failed to match is
dropped outright, not kept with a defaulted 0 duration. -/
theorem claim_C9_unmatched_candidates_dropped (env : ChannelEnv) (cutoff : Int)
    (seen : Finset String) (x : String)
    (hx : ∀ ids resp, env.details ids = .ok resp → ∀ d ∈ resp, d.id ≠ x) :
    x ∉ (get_last_24h_videos_with_duration env cutoff seen).map Video.video_id := by
  intro hmem
  rw [get_last_24h_videos_with_duration] at hmem
  rcases hcl : env.channelLookup with found | _
  · rw [hcl] at hmem
    rcases found with _ | _
    · simp at hmem
    · rcases hpl : env.playlist with items | _
      · rw [hpl] at hmem
        by_cases hempty :
            ((scanPlaylist cutoff seen items).map Snippet.videoId).isEmpty = true
        · simp only [hempty, if_pos] at hmem
          simp at hmem
        · simp only [hempty] at hmem
          rcases hdet : env.details ((scanPlaylist cutoff seen items).map Snippet.videoId)
            with resp | _
          · rw [hdet] at hmem
            simp only [if_neg, Bool.false_eq_true, not_false_iff, List.mem_map] at hmem
            obtain ⟨v, hv, hvx⟩ := hmem
            obtain ⟨d, hd, _, hvid, _⟩ := qualifyVideos_mem hv
            exact hx _ _ hdet d hd (by rw [← hvid, hvx])
          · rw [hdet] at hmem
            simp at hmem
      · rw [hpl] at hmem
        simp at hmem
  · rw [hcl] at hmem
    simp at hmem

/-- Concrete instance of claim C9: two candidates are requested but the response
matches only the first, so the second is absent from the result rather than kept
with duration 0. -/
theorem claim_C9_witness :
    "yyyyyyyyyyy" ∉
      (get_last_24h_videos_with_duration
          { channelLookup := .ok true
            playlist := .ok [⟨"vidvidvidvi", "Video X", "ChanA", 0⟩,
              ⟨"yyyyyyyyyyy", "Video Y", "ChanA", -1⟩]
            details := tableDetails fun i => if i = "vidvidvidvi" then some "PT10M" else none }
          (-24) ∅).map Video.video_id :=
  claim_C9_unmatched_candidates_dropped _ (-24) ∅ "yyyyyyyyyyy"
    (by
      intro ids resp h d hd
      have hspec := tableDetails_spec h hd
      intro hdx
      rw [hdx] at hspec
      simp at hspec)

/-- Claim C10: the qualification step never re-sorts — the ids of its output form an
order-preserving subsequence of the ids of the list it filters, and hence of any
candidate ordering that list itself preserves. -/
theorem claim_C10_order_preserved (resp : List VideoDetail) (snip : String → Option Snippet) :
    ((qualifyVideos resp snip).map Video.video_id).Sublist (resp.map VideoDetail.id) ∧
    (∀ candidate_ids : List String, (resp.map VideoDetail.id).Sublist candidate_ids →
       ((qualifyVideos resp snip).map Video.video_id).Sublist candidate_ids) := by
  have main : ∀ resp : List VideoDetail,
      ((qualifyVideos resp snip).map Video.video_id).Sublist (resp.map VideoDetail.id) := by
    intro resp
    induction resp with
    | nil => simp [qualifyVideos]
    | cons d rest ih =>
      rw [qualifyVideos, List.filterMap_cons]
      by_cases h : 300 < parse_duration d.duration
      · rw [if_pos h]
        simpa using List.Sublist.cons₂ d.id ih
      · rw [if_neg h]
        simpa using List.Sublist.cons d.id ih
  exact ⟨main resp, fun cids hc => (main resp).trans hc⟩

/-- Concrete instance of claim C10: with the middle candidate filtered out, the
surviving ids keep their relative order inside a larger candidate ordering. -/
theorem claim_C10_witness :
    ((qualifyVideos [⟨"a", "PT10M"⟩, ⟨"b", "PT1M"⟩, ⟨"c", "PT20M"⟩] (fun _ => none)).map
        Video.video_id).Sublist ["z", "a", "b", "c"] :=
  (claim_C10_order_preserved [⟨"a", "PT10M"⟩, ⟨"b", "PT1M"⟩, ⟨"c", "PT20M"⟩]
      (fun _ => none)).2 ["z", "a", "b", "c"]
    (List.Sublist.cons "z" (List.Sublist.refl _))

/-! ### Lemmas about the writer -/

lemma writeOutcomes_length (m : String → Option String)
    (post : Nat → List (String × NotionValue) → PostResult) :
    ∀ (videos : List Video) (i : Nat), (writeOutcomes m post i videos).length = videos.length := by
  intro videos
  induction videos with
  | nil => intro i; rfl
  | cons v rest ih => intro i; rw [writeOutcomes, List.length_cons, List.length_cons, ih]

lemma writeOutcomes_ne_exn {m : String → Option String}
    {post : Nat → List (String × NotionValue) → PostResult}
    (hpost : ∀ i payload, post i payload ≠ PostResult.exn) :
    ∀ (videos : List Video) (i : Nat), ∀ o ∈ writeOutcomes m post i videos, o ≠ PostResult.exn := by
  intro videos
  induction videos with
  | nil => intro i o ho; rw [writeOutcomes] at ho; simp at ho
  | cons v rest ih =>
    intro i o ho
    rw [writeOutcomes] at ho
    rcases List.mem_cons.mp ho with h | h
    · subst h; exact hpost _ _
    · exact ih (i + 1) o h

lemma addVideosLoop_ok (m : String → Option String)
    (post : Nat → List (String × NotionValue) → PostResult) :
    ∀ (videos : List Video) (i s f : Nat),
      (∀ o ∈ writeOutcomes m post i videos, o ≠ PostResult.exn) →
      addVideosLoop m post i s f videos =
        .ok (s + (writeOutcomes m post i videos).countP postOk,
             f + (writeOutcomes m post i videos).countP (fun o => !postOk o)) := by
  intro videos
  induction videos with
  | nil => intro i s f _; simp [addVideosLoop, writeOutcomes]
  | cons v rest ih =>
    intro i s f h
    have ho : post i (buildProperties v m) ≠ PostResult.exn :=
      h _ (by rw [writeOutcomes]; exact List.mem_cons_self _ _)
    have hrest : ∀ o ∈ writeOutcomes m post (i + 1) rest, o ≠ PostResult.exn :=
      fun o hh => h o (by rw [writeOutcomes]; exact List.mem_cons_of_mem _ hh)
    rw [writeOutcomes, addVideosLoop]
    rcases hp : post i (buildProperties v m) with code | _ | _
    · dsimp only
      by_cases hc : code < 400
      · have h1 : postOk (PostResult.status code) = true := by simp [postOk, hc]
        rw [if_pos hc, ih (i + 1) (s + 1) f hrest, List.countP_cons, List.countP_cons, h1]
        simp only [Bool.not_true, Bool.false_eq_true, eq_self_iff_true, if_true, if_false,
          Except.ok.injEq, Prod.mk.injEq]
        constructor <;> omega
      · have h1 : postOk (PostResult.status code) = false := by simp [postOk, hc]
        rw [if_neg hc, ih (i + 1) s (f + 1) hrest, List.countP_cons, List.countP_cons, h1]
        simp only [Bool.not_false, Bool.false_eq_true, eq_self_iff_true, if_true, if_false,
          Except.ok.injEq, Prod.mk.injEq]
        constructor <;> omega
    · dsimp only
      have h1 : postOk PostResult.reqExc = false := rfl
      rw [ih (i + 1) s (f + 1) hrest, List.countP_cons, List.countP_cons, h1]
      simp only [Bool.not_false, Bool.false_eq_true, eq_self_iff_true, if_true, if_false,
        Except.ok.injEq, Prod.mk.injEq]
      constructor <;> omega
    · exact absurd hp ho

lemma countP_postOk_add_not (outcomes : List PostResult) :
    outcomes.countP postOk + outcomes.countP (fun o => !postOk o) = outcomes.length := by
  induction outcomes with
  | nil => rfl
  | cons o rest ih =>
    rw [List.countP_cons, List.countP_cons, List.length_cons]
    by_cases h : postOk o = true <;> simp [h] <;> omega

lemma add_videos_ok {m : String → Option String}
    {post : Nat → List (String × NotionValue) → PostResult} (videos : List Video)
    (h : ∀ o ∈ writeOutcomes m post 0 videos, o ≠ PostResult.exn) :
    add_videos_to_notion_batch videos m post =
      .ok ((writeOutcomes m post 0 videos).countP postOk,
           (writeOutcomes m post 0 videos).countP (fun o => !postOk o)) := by
  rw [add_videos_to_notion_batch]
  by_cases he : videos.isEmpty
  · rw [if_pos he]
    rw [List.isEmpty_iff] at he
    subst he
    rfl
  · rw [if_neg he, addVideosLoop_ok m post videos 0 0 0 h]
    simp

/-- Claim C7: as long as every write request either returns a status or raises a
(caught) `RequestException` — the failure domain the claim describes — the batch
writer returns the pair of the number of successful posts and the number of failed
ones, posting each video exactly once in order (`writeOutcomes` lists the one
outcome per video) so a failure neither halts the batch nor triggers a retry, and
the two counts sum to the batch size. -/
theorem claim_C7_write_failures_counted (videos : List Video)
    (m : String → Option String) (post : Nat → List (String × NotionValue) → PostResult)
    (h : ∀ o ∈ writeOutcomes m post 0 videos, o ≠ PostResult.exn) :
    add_videos_to_notion_batch videos m post =
      .ok ((writeOutcomes m post 0 videos).countP postOk,
           (writeOutcomes m post 0 videos).countP (fun o => !postOk o)) ∧
    (writeOutcomes m post 0 videos).countP postOk +
      (writeOutcomes m post 0 videos).countP (fun o => !postOk o) = videos.length :=
  ⟨add_videos_ok videos h,
   (countP_postOk_add_not _).trans (writeOutcomes_length m post videos 0)⟩

/-- Concrete instance of claim C7: a three-video batch whose middle write fails with
a 500 status and whose last write fails with a transport exception still attempts all
three writes and reports one success and two failures. -/
theorem claim_C7_witness :
    add_videos_to_notion_batch
        [Video.mk "t1" "a" "c" 0 301 0, Video.mk "t2" "b" "c" 0 302 0,
         Video.mk "t3" "c" "c" 0 303 0]
        (fun _ => none)
        (fun i _ => if i = 0 then .status 200 else if i = 1 then .status 500 else .reqExc) =
      .ok (1, 2) := by
  have h := claim_C7_write_failures_counted
    [Video.mk "t1" "a" "c" 0 301 0, Video.mk "t2" "b" "c" 0 302 0,
     Video.mk "t3" "c" "c" 0 303 0]
    (fun _ => none)
    (fun i _ => if i = 0 then .status 200 else if i = 1 then .status 500 else .reqExc)
    (by
      intro o ho
      simp [writeOutcomes] at ho
      rcases ho with h | h | h <;> subst h <;> intro hcon <;> cases hcon)
  exact h.1.trans (by rfl)

/-! ### Lemmas about the category map and the write payload -/

lemma pyTruthy_some {t : String} (h : t ≠ "") : pyTruthy (some t) = true := by
  rw [pyTruthy, Option.getD_some]
  cases hb : t.isEmpty with
  | true => exact absurd ((String.isEmpty_iff t).mp hb) h
  | false => rfl

lemma pyTruthy_none : pyTruthy none = false := rfl

lemma pyTruthy_getD {o : Option String} (h : pyTruthy o = true) : o.getD "" ≠ "" := by
  intro he
  rw [pyTruthy, he] at h
  exact absurd h (by decide)

lemma extractMappingsPage_values {acc : String → Option String}
    (hacc : ∀ c t, acc c = some t → t ≠ "") (records : List MappingRecord) :
    ∀ c t, extractMappingsPage acc records c = some t → t ≠ "" := by
  induction records generalizing acc with
  | nil => exact hacc
  | cons r rest ih =>
    intro c t hct
    rw [extractMappingsPage, List.foldl_cons] at hct
    by_cases h : (pyTruthy r.channel && pyTruthy r.typeName) = true
    · rw [if_pos h] at hct
      refine ih ?_ c t hct
      intro c' t' hct'
      simp only [] at hct'
      by_cases hc : c' = r.channel.getD ""
      · rw [if_pos hc, Option.some_inj] at hct'
        have htr : pyTruthy r.typeName = true := by
          have hh := h
          rw [Bool.and_eq_true] at hh
          exact hh.2
        rw [← hct']
        exact pyTruthy_getD htr
      · rw [if_neg hc] at hct'
        exact hacc c' t' hct'
    · rw [if_neg h] at hct
      exact ih hacc c t hct

lemma get_channel_type_mappings_values (transcript : List MapStep) :
    ∀ c t, get_channel_type_mappings transcript c = some t → t ≠ "" := by
  rw [get_channel_type_mappings]
  have main : ∀ (transcript : List MapStep) (acc : String → Option String),
      (∀ c t, acc c = some t → t ≠ "") →
      ∀ c t, typeMappingsLoop acc transcript c = some t → t ≠ "" := by
    intro transcript
    induction transcript with
    | nil => intro acc hacc; exact hacc
    | cons st rest ih =>
      intro acc hacc
      rcases st with ⟨records, hasMore⟩ | _
      · rw [typeMappingsLoop]
        have hpage := extractMappingsPage_values hacc records
        rcases hasMore with _ | _
        · simpa using hpage
        · simpa using ih _ hpage
      · exact hacc
  exact main transcript _ (by intro c t h; simp at h)

/-- Claim C6: for maps whose values are all nonempty — which
`get_channel_type_mappings_values` shows holds of every map the reader builds — a
video whose channel name is a key of the map gets exactly that category label as its
`Type` property, and a video whose channel name is absent gets no `Type` entry in the
payload at all; moreover any `Type` entry that does occur carries a nonempty label
from the map (never null or the empty string). -/
theorem claim_C6_category_omitted_or_present (m : String → Option String)
    (hm : ∀ c t, m c = some t → t ≠ "") (video : Video) :
    (∀ t, m video.channel_title = some t →
       ("Type", NotionValue.selectV t) ∈ buildProperties video m) ∧
    (m video.channel_title = none →
       ∀ val, ("Type", val) ∉ buildProperties video m) ∧
    (∀ val, ("Type", val) ∈ buildProperties video m →
       ∃ t, m video.channel_title = some t ∧ val = NotionValue.selectV t ∧ t ≠ "") := by
  refine ⟨?_, ?_, ?_⟩
  · intro t ht
    have htne : t ≠ "" := hm _ _ ht
    simp [buildProperties, ht, pyTruthy_some htne]
  · intro hnone val
    simp [buildProperties, hnone, pyTruthy_none]
  · intro val hval
    rcases hmc : m video.channel_title with _ | t
    · rw [buildProperties] at hval
      rw [hmc] at hval
      simp [pyTruthy_none] at hval
    · have htne : t ≠ "" := hm _ _ hmc
      rw [buildProperties] at hval
      rw [hmc] at hval
      simp only [pyTruthy_some htne, if_true, Option.getD_some, List.mem_append,
        List.mem_singleton] at hval
      rcases hval with h | h
      · simp at h
      · rw [Prod.mk.injEq] at h
        exact ⟨t, rfl, h.2, htne⟩

/-- Concrete instance of claim C6, the specification's own example: with category map
`{"Foo" : "Tech"}`, a `"Foo"`-channel video's payload carries `Type = "Tech"`, while a
`"Bar"`-channel video's payload has no `Type` entry at all. -/
theorem claim_C6_witness :
    ("Type", NotionValue.selectV "Tech") ∈
      buildProperties (Video.mk "t" "a" "Foo" 0 400 0)
        (fun c => if c = "Foo" then some "Tech" else none) ∧
    ∀ val, ("Type", val) ∉
      buildProperties (Video.mk "t" "b" "Bar" 0 400 0)
        (fun c => if c = "Foo" then some "Tech" else none) := by
  have hm : ∀ c t, (fun c => if c = "Foo" then some "Tech" else none) c = some t → t ≠ "" := by
    intro c t h
    by_cases hc : c = "Foo" <;> simp [hc] at h
    rw [← h]
    decide
  constructor
  · exact (claim_C6_category_omitted_or_present _ hm (Video.mk "t" "a" "Foo" 0 400 0)).1
      "Tech" (by simp)
  · exact (claim_C6_category_omitted_or_present _ hm (Video.mk "t" "b" "Bar" 0 400 0)).2.1
      (by simp)

/-! ### Lemmas about reader pagination -/

lemma existingIdsLoop_append_err (pre : List IdStep) (rest : List IdStep) :
    ∀ acc, (∀ st ∈ pre, ∃ records, st = IdStep.ok records true) →
      existingIdsLoop acc (pre ++ IdStep.err :: rest) =
        pre.foldl (fun acc st => extractIdsPage acc st.records) acc := by
  induction pre with
  | nil => intro acc _; rfl
  | cons st pre ih =>
    intro acc hpre
    obtain ⟨records, hst⟩ := hpre st (by simp)
    subst hst
    rw [List.cons_append, existingIdsLoop, List.foldl_cons]
    simp only [if_true]
    exact ih _ (fun st hst => hpre st (by simp [hst]))

lemma typeMappingsLoop_append_err (pre : List MapStep) (rest : List MapStep) :
    ∀ acc, (∀ st ∈ pre, ∃ records, st = MapStep.ok records true) →
      typeMappingsLoop acc (pre ++ MapStep.err :: rest) =
        pre.foldl (fun acc st => extractMappingsPage acc st.records) acc := by
  induction pre with
  | nil => intro acc _; rfl
  | cons st pre ih =>
    intro acc hpre
    obtain ⟨records, hst⟩ := hpre st (by simp)
    subst hst
    rw [List.cons_append, typeMappingsLoop, List.foldl_cons]
    simp only [if_true]
    exact ih _ (fun st hst => hpre st (by simp [hst]))

/-- Claim C8: for both record-store read operations, a transport or decode failure on
a pagination step (modelled by the `err` transcript entry) stops the pagination loop
and the operation returns exactly what the earlier pages accumulated, whatever came
after the failure; both operations are total Lean functions, so the failure never
propagates and the run is not aborted. -/
theorem claim_C8_partial_pagination :
    (∀ (pre rest : List IdStep), (∀ st ∈ pre, ∃ records, st = IdStep.ok records true) →
       get_existing_video_ids (pre ++ IdStep.err :: rest) =
         pre.foldl (fun acc st => extractIdsPage acc st.records) ∅) ∧
    (∀ (pre rest : List MapStep) (c : String),
       (∀ st ∈ pre, ∃ records, st = MapStep.ok records true) →
       get_channel_type_mappings (pre ++ MapStep.err :: rest) c =
         pre.foldl (fun acc st => extractMappingsPage acc st.records) (fun _ => none) c) :=
  ⟨fun pre rest hpre => existingIdsLoop_append_err pre rest ∅ hpre,
   fun pre rest c hpre =>
     congrFun (typeMappingsLoop_append_err pre rest (fun _ => none) hpre) c⟩

/-- Concrete instance of claim C8: one good page, then a failing request, then a page
that is never fetched — the seen-id set holds only the first page's extractable id
(the record without a URL and the one with an unparseable URL are skipped), and the
category map keeps the first page's mapping, unaffected by the page after the
failure. -/
theorem claim_C8_witness :
    get_existing_video_ids
        [IdStep.ok [some "https://www.youtube.com/watch?v=dQw4w9WgXcQ", none, some "nonsense"] true,
         IdStep.err,
         IdStep.ok [some "https://youtu.be/abcABC12345"] true] =
      ({"dQw4w9WgXcQ"} : Finset String) ∧
    get_channel_type_mappings
        [MapStep.ok [⟨some "Foo", some "Tech"⟩, ⟨some "", some "X"⟩, ⟨some "Bar", none⟩] true,
         MapStep.err,
         MapStep.ok [⟨some "Foo", some "Later"⟩] true] "Foo" =
      some "Tech" := by
  constructor
  · have h := claim_C8_partial_pagination.1
      [IdStep.ok [some "https://www.youtube.com/watch?v=dQw4w9WgXcQ", none, some "nonsense"] true]
      [IdStep.ok [some "https://youtu.be/abcABC12345"] true]
      (by intro st hst; rw [List.mem_singleton] at hst; exact ⟨_, hst⟩)
    exact h.trans (by decide)
  · have h := claim_C8_partial_pagination.2
      [MapStep.ok [⟨some "Foo", some "Tech"⟩, ⟨some "", some "X"⟩, ⟨some "Bar", none⟩] true]
      [MapStep.ok [⟨some "Foo", some "Later"⟩] true] "Foo"
      (by intro st hst; rw [List.mem_singleton] at hst; exact ⟨_, hst⟩)
    exact h.trans (by decide)

/-! ### Lemmas about the orchestrator -/

lemma tableDetails_agree (t : String → Option String) :
    ∀ ids resp, tableDetails t ids = .ok resp → ∀ d ∈ resp, d.id ∈ ids :=
  fun _ _ h d hd => (tableDetails_spec h hd).1

lemma get_last_24h_fresh {env : ChannelEnv} (hdet : DetailsAgree env) (cutoff : Int)
    (seen : Finset String) :
    ∀ v ∈ get_last_24h_videos_with_duration env cutoff seen, v.video_id ∉ seen := by
  intro v hv
  rw [get_last_24h_videos_with_duration] at hv
  rcases hcl : env.channelLookup with found | _
  · rw [hcl] at hv
    rcases found with _ | _
    · simp at hv
    · rcases hpl : env.playlist with items | _
      · rw [hpl] at hv
        by_cases hempty :
            ((scanPlaylist cutoff seen items).map Snippet.videoId).isEmpty = true
        · simp only [hempty, if_pos] at hv
          simp at hv
        · simp only [hempty] at hv
          rcases hdetr : env.details ((scanPlaylist cutoff seen items).map Snippet.videoId)
            with resp | _
          · rw [hdetr] at hv
            simp only [if_neg, Bool.false_eq_true, not_false_iff] at hv
            obtain ⟨d, hd, _, hvid, _⟩ := qualifyVideos_mem hv
            have hid : d.id ∈ (scanPlaylist cutoff seen items).map Snippet.videoId :=
              hdet _ _ hdetr d hd
            rw [List.mem_map] at hid
            obtain ⟨snip, hsnip, hsid⟩ := hid
            rw [hvid, ← hsid]
            exact (scanPlaylist_mem snip hsnip).1
          · rw [hdetr] at hv
            simp at hv
      · rw [hpl] at hv
        simp at hv
  · rw [hcl] at hv
    simp at hv

lemma mergeIds_mem {x : String} (videos : List Video) :
    ∀ seen, x ∈ mergeIds seen videos ↔ x ∈ seen ∨ x ∈ videoIds videos := by
  induction videos with
  | nil => intro seen; simp [mergeIds, videoIds]
  | cons v vs ih =>
    intro seen
    rw [mergeIds, List.foldl_cons]
    have h := ih (insert v.video_id seen)
    rw [mergeIds] at h
    rw [h]
    simp only [Finset.mem_insert, videoIds, List.map_cons, List.toFinset_cons]
    tauto

lemma mergeIds_eq (seen : Finset String) (videos : List Video) :
    mergeIds seen videos = seen ∪ videoIds videos := by
  apply Finset.ext
  intro x
  rw [mergeIds_mem videos seen, Finset.mem_union]

lemma mergeIds_nil (seen : Finset String) : mergeIds seen [] = seen := rfl

lemma processChannels_eq_ok (env : RunEnv) (m : String → Option String) (cutoff : Int)
    (hexn : NoOtherExn env) :
    ∀ (channels : List String) (seen : Finset String) (s f : Nat),
      ∃ s' f', processChannels env m cutoff channels seen s f =
        .ok (seenAfter env cutoff channels seen, s', f') := by
  intro channels
  induction channels with
  | nil => intro seen s f; exact ⟨s, f, rfl⟩
  | cons ch rest ih =>
    intro seen s f
    rw [processChannels, seenAfter]
    by_cases hv :
        (get_last_24h_videos_with_duration (env.channelEnv ch) cutoff seen).isEmpty = true
    · have hnil : get_last_24h_videos_with_duration (env.channelEnv ch) cutoff seen = [] :=
        List.isEmpty_iff.mp hv
      simp only [hv, if_pos]
      rw [hnil, mergeIds_nil]
      exact ih seen s f
    · simp only [hv, Bool.false_eq_true, if_neg, not_false_iff]
      rw [add_videos_ok _ (writeOutcomes_ne_exn (fun i p => hexn ch i p) _ 0)]
      exact ih _ _ _

/-- Helper for `allVideoIds`: the union accumulator distributes over the fold. -/
lemma foldl_union_init (l : List (List Video)) :
    ∀ (x y : Finset String),
      l.foldl (fun acc vs => acc ∪ videoIds vs) (x ∪ y) =
        x ∪ l.foldl (fun acc vs => acc ∪ videoIds vs) y := by
  induction l with
  | nil => intro x y; rfl
  | cons vs l ih =>
    intro x y
    rw [List.foldl_cons, List.foldl_cons, Finset.union_assoc, ih]

lemma allVideoIds_cons (vs : List Video) (l : List (List Video)) :
    allVideoIds (vs :: l) = videoIds vs ∪ allVideoIds l := by
  rw [allVideoIds, allVideoIds, List.foldl_cons]
  rw [show (∅ ∪ videoIds vs : Finset String) = videoIds vs ∪ ∅ from by
    rw [Finset.empty_union, Finset.union_empty]]
  exact foldl_union_init l (videoIds vs) ∅

lemma seenAfter_eq_union (env : RunEnv) (cutoff : Int) :
    ∀ (channels : List String) (seen : Finset String),
      seenAfter env cutoff channels seen =
        seen ∪ allVideoIds (channelVideos env cutoff channels seen) := by
  intro channels
  induction channels with
  | nil => intro seen; rw [seenAfter, channelVideos, allVideoIds]; simp
  | cons ch rest ih =>
    intro seen
    rw [seenAfter, channelVideos, allVideoIds_cons, ih, mergeIds_eq, Finset.union_assoc]

lemma channelVideos_disjoint {env : RunEnv} (cutoff : Int)
    (hdet : ∀ ch, DetailsAgree (env.channelEnv ch)) :
    ∀ (channels : List String) (seen₀ : Finset String) (pre : List (List Video))
      (mid : List Video) (post' : List (List Video)),
      channelVideos env cutoff channels seen₀ = pre ++ mid :: post' →
      ∀ v ∈ mid, v.video_id ∉ seen₀ ∧ ∀ earlier ∈ pre, v.video_id ∉ videoIds earlier := by
  intro channels
  induction channels with
  | nil =>
    intro seen₀ pre mid post' heq
    rw [channelVideos] at heq
    exact absurd heq.symm (List.append_ne_nil_of_right_ne_nil _ (by simp))
  | cons ch rest ih =>
    intro seen₀ pre mid post' heq v hv
    rw [channelVideos] at heq
    rcases pre with _ | ⟨p, pre⟩
    · rw [List.nil_append] at heq
      have hmid : mid = get_last_24h_videos_with_duration (env.channelEnv ch) cutoff seen₀ :=
        (List.cons.injEq _ _ _ _ ▸ heq).1.symm
      constructor
      · exact get_last_24h_fresh (hdet ch) cutoff seen₀ v (hmid ▸ hv)
      · intro earlier hearlier
        simp at hearlier
    · rw [List.cons_append] at heq
      have hp : get_last_24h_videos_with_duration (env.channelEnv ch) cutoff seen₀ = p :=
        (List.cons.injEq _ _ _ _ ▸ heq).1
      have hrest := (List.cons.injEq _ _ _ _ ▸ heq).2
      have hih := ih _ pre mid post' hrest v hv
      have hnotmerge := hih.1
      rw [mergeIds_mem] at hnotmerge
      push_neg at hnotmerge
      refine ⟨hnotmerge.1, ?_⟩
      intro earlier hearlier
      rcases List.mem_cons.mp hearlier with h | h
      · subst h
        rw [← hp]
        exact hnotmerge.2
      · exact hih.2 earlier h

/-- Claim C1 (amended): after each channel's write batch, the identifiers of *all*
videos passed to that batch — successfully written or not — are merged into the
shared seen-set, so on normal termination the final seen-set is exactly the initial
one united with every processed channel's batch ids; and whenever the run's
per-channel batches decompose as `pre ++ mid :: post'`, no video of a later batch
`mid` carries an id from the initial seen-set or from any earlier channel's batch:
the membership test before the write ensures an id is written at most once per run. -/
theorem claim_C1_seen_set_merge (env : RunEnv) (m : String → Option String)
    (cutoff : Int) (channels : List String) (seen₀ : Finset String)
    (hdet : ∀ ch, DetailsAgree (env.channelEnv ch)) (hexn : NoOtherExn env) :
    (∃ s f, processChannels env m cutoff channels seen₀ 0 0 =
        .ok (seen₀ ∪ allVideoIds (channelVideos env cutoff channels seen₀), s, f)) ∧
    (∀ (pre : List (List Video)) (mid : List Video) (post' : List (List Video)),
       channelVideos env cutoff channels seen₀ = pre ++ mid :: post' →
       ∀ v ∈ mid, v.video_id ∉ seen₀ ∧ ∀ earlier ∈ pre, v.video_id ∉ videoIds earlier) := by
  constructor
  · obtain ⟨s', f', h⟩ := processChannels_eq_ok env m cutoff hexn channels seen₀ 0 0
    exact ⟨s', f', by rw [h, seenAfter_eq_union]⟩
  · exact channelVideos_disjoint cutoff hdet channels seen₀

/-- Counterexample to claim C1 as stated: in the `envC1` run the single video's write
fails (status 500), so the set of newly-written identifiers is empty — the summary
records 0 successes and 1 failure — yet the video's identifier is still merged into
the seen-set, which ends as `{"vidvidvidvi"}` rather than staying empty. The code
merges the ids of every video passed to the write batch, not only the written ones. -/
theorem claim_C1_counterexample :
    processChannels envC1 (fun _ => none) (-24) ["A"] ∅ 0 0 =
      .ok (insert "vidvidvidvi" ∅, 0, 1) := rfl

/-- Concrete instance of the amended claim C1: channels "A" and "B" share upload X,
every write fails with a transport error; the conclusion instantiates to this run. -/
theorem claim_C1_witness :
    (∃ s f, processChannels envW1 (fun _ => none) (-24) ["A", "B"] ∅ 0 0 =
        .ok (∅ ∪ allVideoIds (channelVideos envW1 (-24) ["A", "B"] ∅), s, f)) ∧
    (∀ (pre : List (List Video)) (mid : List Video) (post' : List (List Video)),
       channelVideos envW1 (-24) ["A", "B"] ∅ = pre ++ mid :: post' →
       ∀ v ∈ mid, v.video_id ∉ (∅ : Finset String) ∧
         ∀ earlier ∈ pre, v.video_id ∉ videoIds earlier) :=
  claim_C1_seen_set_merge envW1 (fun _ => none) (-24) ["A", "B"] ∅
    (by
      intro ch
      by_cases hch : ch = "A"
      · subst hch
        exact fun ids resp h d hd => (tableDetails_spec h hd).1
      · intro ids resp h d hd
        simp only [envW1, if_neg hch] at h
        exact (tableDetails_spec h hd).1)
    (fun _ _ _ h => PostResult.noConfusion h)

/-- Claim C2 (amended): exceptions are absorbed inside the per-channel stages — the
lister returns `[]` on any of its failures and the writer catches transport
exceptions per item — not by any orchestrator-level handler (the source has none);
consequently, as long as no write raises something other than a `RequestException`,
the run terminates normally after the last channel no matter how the listers and
writers fail. -/
theorem claim_C2_failures_isolated (env : RunEnv) (m : String → Option String)
    (cutoff : Int) (channels : List String) (seen₀ : Finset String)
    (hexn : NoOtherExn env) :
    ∃ seenF s f, processChannels env m cutoff channels seen₀ 0 0 = .ok (seenF, s, f) := by
  obtain ⟨s', f', h⟩ := processChannels_eq_ok env m cutoff hexn channels seen₀ 0 0
  exact ⟨_, s', f', h⟩

/-- Counterexample to claim C2 as stated: no exception is caught at the orchestrator
level — `main` has no handler around its loop — so when channel "A"'s write raises an
exception the writer does not catch, the whole run aborts with that exception and
channel "B" is never processed, contradicting "no such exception ever aborts the
whole run". -/
theorem claim_C2_counterexample :
    processChannels envC2 (fun _ => none) (-24) ["A", "B"] ∅ 0 0 = .error () := rfl

/-- Concrete instance of the amended claim C2: channel "A"'s feed listing raises and
channel "B"'s only write fails with a transport error, yet the run ends normally. -/
theorem claim_C2_witness :
    ∃ seenF s f, processChannels envW2 (fun _ => none) (-24) ["A", "B"] ∅ 0 0 =
      .ok (seenF, s, f) :=
  claim_C2_failures_isolated envW2 (fun _ => none) (-24) ["A", "B"] ∅
    (fun _ _ _ h => PostResult.noConfusion h)

end Sync
